import Mathlib

/-!
Verification of the PF_AIR PID controller core.

The development shallowly embeds the control loop of `src/app.py` and the
BLE text codec of `src/bluetooth_link.py` over the rationals.  The file
`pid_core.py` (class `PID`) is imported by `src/app.py` but is not part of
the sources; its operations are modelled from the specification (§4.1) and
every statement that depends on them says so in its documentation.
-/

namespace PFAir

/-- PID state.  Modelled from the spec: `pid_core.py` (class `PID`) is
imported by `src/app.py` but missing from the sources.  Fields follow §3:
gains, accumulated integral, previous error, and the flag gating the
derivative term. -/
structure PID where
  kp : ℚ
  ki : ℚ
  kd : ℚ
  integral : ℚ
  previous_error : ℚ
  has_previous : Bool
deriving DecidableEq, Repr

/-- Modelled from the spec (§4.1), `pid_core.py` being absent from the
sources: error, rectangular integration, gated derivative, and the control
law `kp*error + ki*integral + kd*derivative`; updates `previous_error` and
`has_previous`.  Returns the new state and the control value. -/
def PID.update (p : PID) (setpoint measurement dtv : ℚ) : PID × ℚ :=
  let error := setpoint - measurement
  let integral := p.integral + error * dtv
  let derivative := if p.has_previous then (error - p.previous_error) / dtv else 0
  let control := p.kp * error + p.ki * integral + p.kd * derivative
  ({ p with integral := integral, previous_error := error, has_previous := true }, control)

/-- Modelled from the spec (§4.1), `pid_core.py` being absent from the
sources: `reset()` zeroes `integral`, `previous_error`, `has_previous`;
gains untouched. -/
def PID.reset (p : PID) : PID :=
  { p with integral := 0, previous_error := 0, has_previous := false }

/-- Gain reassignment `pid.kp = kp; pid.ki = ki; pid.kd = kd` performed by
`src/app.py` lines 113-115 each tick (the spec's `set_gains`). -/
def PID.set_gains (p : PID) (kp ki kd : ℚ) : PID :=
  { p with kp := kp, ki := ki, kd := kd }

/-- The four series of `st.session_state.history` in `src/app.py` line 108:
a dict of lists "time", "measurement", "control", "error". -/
structure History where
  time : List ℚ
  measurement : List ℚ
  control : List ℚ
  error : List ℚ
deriving DecidableEq, Repr

/-- Fresh history, `src/app.py` line 108. -/
def History.empty : History := ⟨[], [], [], []⟩

/-- One tick's four appends, `src/app.py` lines 158-161. -/
def History.append1 (h : History) (t m c e : ℚ) : History :=
  ⟨h.time ++ [t], h.measurement ++ [m], h.control ++ [c], h.error ++ [e]⟩

/-- Control configuration read fresh each tick from the sidebar widgets
(`src/app.py` lines 72-89). -/
structure Config where
  kp : ℚ
  ki : ℚ
  kd : ℚ
  setpoint : ℚ
  motor_output_limit : ℚ
  emergency_stop : Bool
  reset_controller : Bool
deriving DecidableEq, Repr

/-- Session state carried across ticks (`src/app.py` lines 101-110):
the PID instance, whether a Bluetooth link is attached, the running flag,
the sample history and the reference start time. -/
structure AppState where
  pid : PID
  bluetooth : Bool
  running : Bool
  history : History
  start_time : ℚ
deriving DecidableEq, Repr

/-- Observable outcome of one tick: the new session state, the tick's
control output, measurement and error, and the values written to the
link (`send_control_output` calls) during the tick. -/
structure TickResult where
  state : AppState
  control_output : ℚ
  measurement : ℚ
  error : ℚ
  writes : List ℚ
deriving DecidableEq, Repr

/-- Fixed tick period `dt = 0.02`, `src/app.py` line 138. -/
def dt : ℚ := 1 / 50

/-- Semantics of `np.clip(x, amin, amax)`: `min(amax, max(x, amin))`. -/
def npClip (x amin amax : ℚ) : ℚ := min amax (max x amin)

/-- Reset handling, `src/app.py` lines 107-110: when the reset button is
pressed the history is re-created empty, the reference start time is reset
to the current wall time and `pid.reset()` is called.  This block runs
before anything else in the tick. -/
def applyReset (cfg : Config) (now : ℚ) (s : AppState) : AppState :=
  if cfg.reset_controller then
    { s with history := History.empty, start_time := now, pid := s.pid.reset }
  else s

/-- The tick body after the reset block, `src/app.py` lines 112-161:
gains are refreshed from configuration (113-115), then either the
emergency branch (141-146: stop running, reset the PID, force the control
to 0, reuse the last logged measurement or 0, no link write, no append)
or the running branch (147-161: measurement is the link read when a link
is attached and 0.0 otherwise, PID update with `dt`, `np.clip` to the
symmetric output limit, link write when attached, and the four history
appends).  `readValue` is the value a link read returns this tick. -/
def tickCore (cfg : Config) (now readValue : ℚ) (s : AppState) : TickResult :=
  let pid0 := s.pid.set_gains cfg.kp cfg.ki cfg.kd
  let current_time := now - s.start_time
  if cfg.emergency_stop then
    let pid1 := pid0.reset
    let measurement := (s.history.measurement.getLast?).getD 0
    let error := cfg.setpoint - measurement
    { state := { s with pid := pid1, running := false },
      control_output := 0, measurement := measurement, error := error, writes := [] }
  else
    let measurement := if s.bluetooth then readValue else 0
    let u := pid0.update cfg.setpoint measurement dt
    let control := npClip u.2 (-cfg.motor_output_limit) cfg.motor_output_limit
    let writes := if s.bluetooth then [control] else []
    let error := cfg.setpoint - measurement
    let history := s.history.append1 current_time measurement control error
    { state := { s with pid := u.1, running := true, history := history },
      control_output := control, measurement := measurement, error := error,
      writes := writes }

/-- One full tick of `src/app.py`: the reset block (lines 107-110) runs
first, then the rest of the tick. -/
def tick (cfg : Config) (now readValue : ℚ) (s : AppState) : TickResult :=
  tickCore cfg now readValue (applyReset cfg now s)

/-! Concrete states and configurations used by witnesses and
counterexamples. -/

/-- A configuration with the emergency stop asserted (slider defaults of
`src/app.py` otherwise). -/
def cfgStop : Config :=
  { kp := 20, ki := 0, kd := 2, setpoint := 10, motor_output_limit := 50,
    emergency_stop := true, reset_controller := false }

/-- A running configuration (no emergency stop, no reset). -/
def cfgRun : Config :=
  { kp := 20, ki := 0, kd := 2, setpoint := 10, motor_output_limit := 50,
    emergency_stop := false, reset_controller := false }

/-- A session state with no link attached, one logged sample whose
measurement is 5, and a PID carrying nonzero accumulated state. -/
def sNoLink : AppState :=
  { pid := ⟨20, 0, 2, 3, 1, true⟩, bluetooth := false, running := true,
    history := ⟨[0], [5], [7], [5]⟩, start_time := 0 }

/-! Claim theorems. -/

/-- C1: on every tick whose configuration asserts the emergency stop,
whatever the prior state, the control output is forced to 0, no value is
written to the link, the PID integral is 0 immediately after (the branch
calls the PID reset), the tick's measurement is the last logged measurement
of the (post-reset-block) history or 0 when that history is empty, and the
history is left exactly as the reset block left it — no sample is
appended. -/
theorem C1_emergency_stop (cfg : Config) (now rv : ℚ) (s : AppState)
    (hE : cfg.emergency_stop = true) :
    (tick cfg now rv s).control_output = 0 ∧
    (tick cfg now rv s).writes = [] ∧
    (tick cfg now rv s).state.pid.integral = 0 ∧
    (tick cfg now rv s).measurement =
      ((applyReset cfg now s).history.measurement.getLast?).getD 0 ∧
    (tick cfg now rv s).state.history = (applyReset cfg now s).history := by
  simp [tick, tickCore, hE, PID.reset, PID.set_gains]

/-- Witness for C1: the emergency configuration on a state with one logged
sample and nonzero PID state. -/
theorem C1_emergency_stop_witness :
    cfgStop.emergency_stop = true ∧
    ((tick cfgStop 1 0 sNoLink).control_output = 0 ∧
     (tick cfgStop 1 0 sNoLink).writes = [] ∧
     (tick cfgStop 1 0 sNoLink).state.pid.integral = 0 ∧
     (tick cfgStop 1 0 sNoLink).measurement =
       ((applyReset cfgStop 1 sNoLink).history.measurement.getLast?).getD 0 ∧
     (tick cfgStop 1 0 sNoLink).state.history =
       (applyReset cfgStop 1 sNoLink).history) :=
  ⟨rfl, C1_emergency_stop cfgStop 1 0 sNoLink rfl⟩

/-- C2: on every non-suppressed (running) tick, whatever the gains,
setpoint and measurement, the control value appended to the history is the
tick's control output and lies within the symmetric interval given by the
non-negative output limit of the tick's configuration. -/
theorem C2_output_clamped (cfg : Config) (now rv : ℚ) (s : AppState)
    (hE : cfg.emergency_stop = false) (hL : 0 ≤ cfg.motor_output_limit) :
    (tick cfg now rv s).state.history.control.getLast? =
      some (tick cfg now rv s).control_output ∧
    -cfg.motor_output_limit ≤ (tick cfg now rv s).control_output ∧
    (tick cfg now rv s).control_output ≤ cfg.motor_output_limit := by
  have hLL : -cfg.motor_output_limit ≤ cfg.motor_output_limit :=
    (neg_nonpos.mpr hL).trans hL
  refine ⟨?_, ?_, ?_⟩
  · simp [tick, tickCore, hE, History.append1]
  · simp only [tick, tickCore, hE, Bool.false_eq_true, if_false, npClip]
    exact le_min hLL (le_max_right _ _)
  · simp only [tick, tickCore, hE, Bool.false_eq_true, if_false, npClip]
    exact min_le_left _ _

/-- Witness for C2: the running configuration (limit 50) on the no-link
state. -/
theorem C2_output_clamped_witness :
    cfgRun.emergency_stop = false ∧ 0 ≤ cfgRun.motor_output_limit ∧
    ((tick cfgRun 1 0 sNoLink).state.history.control.getLast? =
       some (tick cfgRun 1 0 sNoLink).control_output ∧
     -cfgRun.motor_output_limit ≤ (tick cfgRun 1 0 sNoLink).control_output ∧
     (tick cfgRun 1 0 sNoLink).control_output ≤ cfgRun.motor_output_limit) :=
  ⟨rfl, by decide, C2_output_clamped cfgRun 1 0 sNoLink rfl (by decide)⟩

/-- Counterexample to C3 as stated: on the running tick of `cfgRun` over
`sNoLink` the history is non-empty with last logged measurement 5 and no
link is attached, yet the tick's measurement is 0, not the last logged
measurement as the claim requires. -/
theorem C3_counterexample :
    sNoLink.bluetooth = false ∧
    sNoLink.history.measurement ≠ [] ∧
    (sNoLink.history.measurement.getLast?).getD 0 = 5 ∧
    (tick cfgRun 1 0 sNoLink).measurement = 0 ∧
    (tick cfgRun 1 0 sNoLink).measurement ≠
      (sNoLink.history.measurement.getLast?).getD 0 := by
  refine ⟨rfl, by decide, by decide, by decide, by decide⟩

/-- C3 amended: on a running tick with no Device Link attached, the
measurement used for the PID update and for the appended sample is always
0, independent of the history contents (`src/app.py` line 149 sets
`measurement = 0.0` and line 150 only overwrites it when a link is
attached). -/
theorem C3_no_link_measurement_zero (cfg : Config) (now rv : ℚ) (s : AppState)
    (hE : cfg.emergency_stop = false) (hB : s.bluetooth = false) :
    (tick cfg now rv s).measurement = 0 ∧
    (tick cfg now rv s).state.history.measurement.getLast? = some 0 := by
  have hB2 : (applyReset cfg now s).bluetooth = false := by
    simp [applyReset]
    split <;> simpa using hB
  constructor
  · simp [tick, tickCore, hE, hB2]
  · simp [tick, tickCore, hE, hB2, History.append1]

/-- Witness for C3's amended statement at the no-link state. -/
theorem C3_no_link_measurement_zero_witness :
    cfgRun.emergency_stop = false ∧ sNoLink.bluetooth = false ∧
    ((tick cfgRun 1 0 sNoLink).measurement = 0 ∧
     (tick cfgRun 1 0 sNoLink).state.history.measurement.getLast? = some 0) :=
  ⟨rfl, rfl, C3_no_link_measurement_zero cfgRun 1 0 sNoLink rfl rfl⟩

/-- C6: with `ki = 0` and `kd = 0` the PID update returns exactly
`kp * (setpoint - measurement)`, whatever the accumulated integral,
previous error and derivative gating in the state (spec-modelled PID from
§4.1, `pid_core.py` being absent from the sources). -/
theorem C6_pure_proportional (p : PID) (sp m dtv : ℚ)
    (hki : p.ki = 0) (hkd : p.kd = 0) :
    (p.update sp m dtv).2 = p.kp * (sp - m) := by
  simp [PID.update, hki, hkd]

/-- Witness for C6: a state with zero integral and derivative gains but
nonzero accumulated state. -/
theorem C6_pure_proportional_witness :
    (⟨20, 0, 0, 3, 1, true⟩ : PID).ki = 0 ∧
    (⟨20, 0, 0, 3, 1, true⟩ : PID).kd = 0 ∧
    ((⟨20, 0, 0, 3, 1, true⟩ : PID).update 10 4 dt).2 = 20 * (10 - 4) :=
  ⟨rfl, rfl, C6_pure_proportional ⟨20, 0, 0, 3, 1, true⟩ 10 4 dt rfl rfl⟩

/-- A configuration asserting both the reset and the emergency stop. -/
def cfgResetStop : Config :=
  { kp := 20, ki := 0, kd := 2, setpoint := 10, motor_output_limit := 50,
    emergency_stop := true, reset_controller := true }

/-- Equal lengths of the four history series. -/
def History.equalLens (h : History) : Prop :=
  h.time.length = h.measurement.length ∧
  h.measurement.length = h.control.length ∧
  h.control.length = h.error.length

instance (h : History) : Decidable (History.equalLens h) :=
  decidable_of_iff (h.time.length = h.measurement.length ∧
    h.measurement.length = h.control.length ∧
    h.control.length = h.error.length) Iff.rfl

/-- The reset block preserves equal series lengths. -/
theorem applyReset_equalLens (cfg : Config) (now : ℚ) (s : AppState)
    (h : History.equalLens s.history) :
    History.equalLens (applyReset cfg now s).history := by
  unfold applyReset
  split
  · exact ⟨rfl, rfl, rfl⟩
  · exact h

/-- Appending one sample preserves equal series lengths. -/
theorem append1_equalLens (h : History) (t m c e : ℚ)
    (hh : History.equalLens h) : History.equalLens (h.append1 t m c e) := by
  obtain ⟨h1, h2, h3⟩ := hh
  refine ⟨?_, ?_, ?_⟩ <;> simp [History.append1, h1, h2, h3]

/-- On an emergency-stopped tick the history is exactly what the reset
block left. -/
theorem tick_history_stop (cfg : Config) (now rv : ℚ) (s : AppState)
    (hE : cfg.emergency_stop = true) :
    (tick cfg now rv s).state.history = (applyReset cfg now s).history := by
  simp [tick, tickCore, hE]

/-- On a running tick the history is the post-reset history with exactly
one sample appended. -/
theorem tick_history_run (cfg : Config) (now rv : ℚ) (s : AppState)
    (hE : cfg.emergency_stop = false) :
    (tick cfg now rv s).state.history =
      ((applyReset cfg now s).history).append1
        (now - (applyReset cfg now s).start_time)
        ((tick cfg now rv s).measurement)
        ((tick cfg now rv s).control_output)
        ((tick cfg now rv s).error) := by
  simp [tick, tickCore, hE]

/-- C7: when `reset_requested` is asserted the reset block clears the
history, zeroes the PID integral and previous error, resets the reference
start time — and the tick is, by construction, the tick body run on that
post-reset state, so the reset precedes the emergency-stop check; in
particular a tick asserting both reset and emergency stop ends with empty
history and zero integral regardless of prior state. -/
theorem C7_reset_before_stop_check (cfg : Config) (now rv : ℚ) (s : AppState)
    (hR : cfg.reset_controller = true) :
    (applyReset cfg now s).history = History.empty ∧
    (applyReset cfg now s).pid.integral = 0 ∧
    (applyReset cfg now s).pid.previous_error = 0 ∧
    (applyReset cfg now s).pid.has_previous = false ∧
    (applyReset cfg now s).start_time = now ∧
    tick cfg now rv s = tickCore cfg now rv (applyReset cfg now s) ∧
    (cfg.emergency_stop = true →
      (tick cfg now rv s).state.history = History.empty ∧
      (tick cfg now rv s).state.pid.integral = 0) := by
  refine ⟨?_, ?_, ?_, ?_, ?_, rfl, fun hE => ⟨?_, ?_⟩⟩
  · simp [applyReset, hR]
  · simp [applyReset, hR, PID.reset]
  · simp [applyReset, hR, PID.reset]
  · simp [applyReset, hR, PID.reset]
  · simp [applyReset, hR]
  · simp [tick, tickCore, hE, applyReset, hR]
  · simp [tick, tickCore, hE, applyReset, hR, PID.reset, PID.set_gains]

/-- Witness for C7: reset and emergency stop asserted together on a state
with prior history and nonzero PID state. -/
theorem C7_reset_before_stop_check_witness :
    cfgResetStop.reset_controller = true ∧
    ((applyReset cfgResetStop 1 sNoLink).history = History.empty ∧
     (applyReset cfgResetStop 1 sNoLink).pid.integral = 0 ∧
     (applyReset cfgResetStop 1 sNoLink).pid.previous_error = 0 ∧
     (applyReset cfgResetStop 1 sNoLink).pid.has_previous = false ∧
     (applyReset cfgResetStop 1 sNoLink).start_time = 1 ∧
     tick cfgResetStop 1 0 sNoLink =
       tickCore cfgResetStop 1 0 (applyReset cfgResetStop 1 sNoLink) ∧
     (cfgResetStop.emergency_stop = true →
       (tick cfgResetStop 1 0 sNoLink).state.history = History.empty ∧
       (tick cfgResetStop 1 0 sNoLink).state.pid.integral = 0)) :=
  ⟨rfl, C7_reset_before_stop_check cfgResetStop 1 0 sNoLink rfl⟩

/-- C8: the per-tick gain reassignment `pid.kp = kp; pid.ki = ki;
pid.kd = kd` leaves the accumulated integral, previous error and the
derivative gate unchanged while installing the new gains; and on a running
tick the control output is computed by the PID update on the
gain-refreshed state, its integral accumulating onto the prior integral
(spec-modelled PID fields, `pid_core.py` being absent from the
sources). -/
theorem C8_gain_refresh (p : PID) (k i d : ℚ) (cfg : Config) (now rv : ℚ)
    (s : AppState) (hE : cfg.emergency_stop = false) :
    (p.set_gains k i d).integral = p.integral ∧
    (p.set_gains k i d).previous_error = p.previous_error ∧
    (p.set_gains k i d).has_previous = p.has_previous ∧
    (p.set_gains k i d).kp = k ∧
    (p.set_gains k i d).ki = i ∧
    (p.set_gains k i d).kd = d ∧
    (tick cfg now rv s).control_output =
      npClip (((applyReset cfg now s).pid.set_gains cfg.kp cfg.ki cfg.kd).update
          cfg.setpoint (if (applyReset cfg now s).bluetooth then rv else 0) dt).2
        (-cfg.motor_output_limit) cfg.motor_output_limit ∧
    (tick cfg now rv s).state.pid.integral =
      (applyReset cfg now s).pid.integral +
        (cfg.setpoint - (if (applyReset cfg now s).bluetooth then rv else 0)) * dt := by
  refine ⟨rfl, rfl, rfl, rfl, rfl, rfl, ?_, ?_⟩
  · simp [tick, tickCore, hE]
  · simp [tick, tickCore, hE, PID.update, PID.set_gains]

/-- Witness for C8: live retuning on the no-link state during a running
tick. -/
theorem C8_gain_refresh_witness :
    cfgRun.emergency_stop = false ∧
    ((sNoLink.pid.set_gains 1 2 3).integral = sNoLink.pid.integral ∧
     (sNoLink.pid.set_gains 1 2 3).previous_error = sNoLink.pid.previous_error ∧
     (sNoLink.pid.set_gains 1 2 3).has_previous = sNoLink.pid.has_previous ∧
     (sNoLink.pid.set_gains 1 2 3).kp = 1 ∧
     (sNoLink.pid.set_gains 1 2 3).ki = 2 ∧
     (sNoLink.pid.set_gains 1 2 3).kd = 3 ∧
     (tick cfgRun 1 0 sNoLink).control_output =
       npClip (((applyReset cfgRun 1 sNoLink).pid.set_gains cfgRun.kp cfgRun.ki
           cfgRun.kd).update cfgRun.setpoint
           (if (applyReset cfgRun 1 sNoLink).bluetooth then 0 else 0) dt).2
         (-cfgRun.motor_output_limit) cfgRun.motor_output_limit ∧
     (tick cfgRun 1 0 sNoLink).state.pid.integral =
       (applyReset cfgRun 1 sNoLink).pid.integral +
         (cfgRun.setpoint -
           (if (applyReset cfgRun 1 sNoLink).bluetooth then 0 else 0)) * dt) :=
  ⟨rfl, C8_gain_refresh sNoLink.pid 1 2 3 cfgRun 1 0 sNoLink rfl⟩

/-- C10: after any tick the four history series keep equal lengths; an
emergency-stopped tick appends to none of them, a running tick appends
exactly one element to each, and a requested reset clears all four
together. -/
theorem C10_history_aligned (cfg : Config) (now rv : ℚ) (s : AppState) :
    (History.equalLens s.history →
      History.equalLens (tick cfg now rv s).state.history) ∧
    (cfg.emergency_stop = true →
      (tick cfg now rv s).state.history = (applyReset cfg now s).history) ∧
    (cfg.emergency_stop = false →
      (tick cfg now rv s).state.history.time.length =
        (applyReset cfg now s).history.time.length + 1 ∧
      (tick cfg now rv s).state.history.measurement.length =
        (applyReset cfg now s).history.measurement.length + 1 ∧
      (tick cfg now rv s).state.history.control.length =
        (applyReset cfg now s).history.control.length + 1 ∧
      (tick cfg now rv s).state.history.error.length =
        (applyReset cfg now s).history.error.length + 1) ∧
    (cfg.reset_controller = true →
      (applyReset cfg now s).history = History.empty) := by
  refine ⟨?_, tick_history_stop cfg now rv s, ?_, ?_⟩
  · intro h
    have h2 := applyReset_equalLens cfg now s h
    rcases hE : cfg.emergency_stop with _ | _
    · rw [tick_history_run cfg now rv s hE]
      exact append1_equalLens _ _ _ _ _ h2
    · rw [tick_history_stop cfg now rv s hE]
      exact h2
  · intro hE
    rw [tick_history_run cfg now rv s hE]
    simp [History.append1]
  · intro hR
    simp [applyReset, hR]

/-- Witness for C10: equal lengths hold after a running tick on the
no-link state, and an emergency-stopped tick leaves the history exactly as
the reset block left it. -/
theorem C10_history_aligned_witness :
    History.equalLens sNoLink.history ∧
    History.equalLens (tick cfgRun 1 0 sNoLink).state.history ∧
    cfgStop.emergency_stop = true ∧
    (tick cfgStop 1 0 sNoLink).state.history =
      (applyReset cfgStop 1 sNoLink).history :=
  ⟨by decide, (C10_history_aligned cfgRun 1 0 sNoLink).1 (by decide), rfl,
   (C10_history_aligned cfgStop 1 0 sNoLink).2.1 rfl⟩

/-! Connection handling.  `src/app.py` lines 126-133 construct
`BluetoothLink(bluetooth_address)` with a single argument and then call
`link.connect()` and `link.list_characteristics()`.  The class defined in
`src/bluetooth_link.py` is embedded below as its calling surface: the
number of positional parameters of `__init__` (besides `self`) and the
set of method names it defines. -/

/-- Calling surface of a Python class: `__init__` arity (without `self`)
and defined method names. -/
structure PyClass where
  initParams : Nat
  methods : List String
deriving DecidableEq, Repr

/-- Calling surface of `BluetoothLink` as defined in
`src/bluetooth_link.py` lines 10-39: `__init__(self, device_address,
characteristic_uuid)` and the methods `connect`, `disconnect`,
`read_measurement`, `send_control_output`. -/
def BluetoothLinkClass : PyClass :=
  { initParams := 2,
    methods := ["connect", "disconnect", "read_measurement", "send_control_output"] }

/-- Python construction: the number of positional arguments must match the
number of `__init__` parameters, else a TypeError is raised. -/
def pyConstruct (cls : PyClass) (argc : Nat) : Except String Unit :=
  if argc = cls.initParams then .ok () else .error "TypeError"

/-- Python method call: the attribute must exist on the class, else an
AttributeError is raised. -/
def pyCallMethod (cls : PyClass) (name : String) : Except String Unit :=
  if name ∈ cls.methods then .ok () else .error "AttributeError"

/-- The connect-button flow of `src/app.py` lines 126-133 up to the point
where the discovered characteristics would be surfaced:
`BluetoothLink(bluetooth_address)` (one argument), `link.connect()`,
`link.list_characteristics()`. -/
def connect_bluetooth_flow : Except String Unit := do
  pyConstruct BluetoothLinkClass 1
  pyCallMethod BluetoothLinkClass "connect"
  pyCallMethod BluetoothLinkClass "list_characteristics"

/-- C5 (claim is right, code is wrong): the connect flow can never reach
the point where characteristics are enumerated and surfaced — the
one-argument construction already raises a TypeError, and even past that
the class defines no `list_characteristics` method, so no enumeration of
characteristics is ever surfaced to the caller. -/
theorem C5_connect_flow_fails :
    connect_bluetooth_flow = .error "TypeError" ∧
    "list_characteristics" ∉ BluetoothLinkClass.methods ∧
    pyCallMethod BluetoothLinkClass "list_characteristics" =
      .error "AttributeError" := by
  refine ⟨rfl, by decide, rfl⟩

/-! Wire codec of `src/bluetooth_link.py`: values travel as UTF-8 text of
a base-10 floating point number.  The receiver runs
`float(data.decode().strip())`; the sender writes `str(value).encode()`.
Values are modelled as finite decimals (an integer mantissa and a power of
ten), the payload as the decoded string. -/

/-- Whitespace characters removed by Python str.strip(). -/
def isPySpace (c : Char) : Bool :=
  c == ' ' || c == '\t' || c == '\n' || c == '\r' || c == '\x0B' || c == '\x0C'

/-- Python str.strip(): drop whitespace from both ends. -/
def stripList (cs : List Char) : List Char :=
  ((cs.dropWhile isPySpace).reverse.dropWhile isPySpace).reverse

/-- Numeric value of a big-endian list of decimal digits. -/
def digitsToNat (l : List Nat) : Nat := l.foldl (fun a d => 10 * a + d) 0

/-- Value of a decimal digit character (used only under a Char.isDigit
guard). -/
def digitVal (c : Char) : Nat := c.toNat - 48

/-- Numeric value of a big-endian list of decimal digit characters. -/
def charsVal (cs : List Char) : Nat := digitsToNat (cs.map digitVal)

/-- Unsigned decimal accepted by Python float(): digits, optionally a
point and further digits, at least one digit in total (this is the
fragment of float()'s grammar that str(float) can produce; exponent and
special forms never arise from the sender). -/
def parseUnsigned (cs : List Char) : Option ℚ :=
  let ip := cs.takeWhile Char.isDigit
  match cs.dropWhile Char.isDigit with
  | [] => if ip.isEmpty then none else some (charsVal ip : ℚ)
  | c :: rest =>
    if c = '.' then
      let fp := rest.takeWhile Char.isDigit
      if (rest.dropWhile Char.isDigit).isEmpty && !(ip.isEmpty && fp.isEmpty) then
        some ((charsVal ip : ℚ) + (charsVal fp : ℚ) / 10 ^ fp.length)
      else none
    else none

/-- Optional sign, then the unsigned decimal. -/
def parseSigned (cs : List Char) : Option ℚ :=
  match cs with
  | [] => none
  | c :: rest =>
    if c = '-' then (parseUnsigned rest).map (fun q => -q)
    else if c = '+' then parseUnsigned rest
    else parseUnsigned (c :: rest)

/-- src/bluetooth_link.py lines 23-30, read_measurement: the GATT payload
(modelled after UTF-8 decoding as a string) is stripped and converted by
float(); a conversion failure (Python ValueError, the spec's
MALFORMED_DATA) is none. -/
def read_measurement (payload : String) : Option ℚ :=
  parseSigned (stripList payload.data)

/-- C4: the payload for the text "  7.50\n" decodes, strips and parses to
exactly 7.5, while the zero-length payload and the non-numeric payload
"abc" fail (MALFORMED_DATA as none) and in particular never yield 0. -/
theorem C4_read_measurement_parse :
    read_measurement "  7.50\n" = some (75 / 10) ∧
    read_measurement "abc" = none ∧
    read_measurement "" = none ∧
    read_measurement "abc" ≠ some 0 ∧
    read_measurement "" ≠ some 0 := by
  refine ⟨?_, by decide, by decide, by decide, by decide⟩
  show parseSigned (stripList "  7.50\n".data) = some (75 / 10)
  have h1 : stripList "  7.50\n".data = ['7', '.', '5', '0'] := by decide
  have h6 : charsVal ['7'] = 7 := by decide
  have h7 : charsVal ['5', '0'] = 50 := by decide
  rw [h1]
  simp [parseSigned, parseUnsigned]
  rw [h6, h7]
  norm_num

/-- Little-endian decimal digits, driven by a fuel argument so that the
definition is structurally recursive. -/
def natToRevDigitsAux : Nat → Nat → List Nat
  | 0, _ => []
  | fuel + 1, n => if n = 0 then [] else n % 10 :: natToRevDigitsAux fuel (n / 10)

/-- Little-endian decimal digits of n, empty for 0. -/
def natToRevDigits (n : Nat) : List Nat := natToRevDigitsAux n n

/-- Big-endian decimal digits of n, empty for 0. -/
def natDigitsBE (n : Nat) : List Nat := (natToRevDigits n).reverse

/-- Decimal digit character of a digit below 10. -/
def toDigitChar (d : Nat) : Char := Char.ofNat (48 + d)

/-- Big-endian digits padded with leading zeros to at least e+1 digits. -/
def padDigits (e : Nat) (l : List Nat) : List Nat :=
  List.replicate (e + 1 - l.length) 0 ++ l

/-- Rendering of the finite decimal m·10^(-e), e ≥ 1, in the shape
Python str() gives a float: optional minus sign, integer digits, decimal
point, e fraction digits. -/
def encodeCore (m : Int) (e : Nat) : List Char :=
  let ds := padDigits e (natDigitsBE m.natAbs)
  let ip := ds.take (ds.length - e)
  let fp := ds.drop (ds.length - e)
  (if m < 0 then ['-'] else []) ++ ip.map toDigitChar ++ '.' :: fp.map toDigitChar

/-- src/bluetooth_link.py lines 32-39, send_control_output: the bytes
written to the characteristic are str(value).encode().  The value is
modelled as the finite decimal m·10^(-e); Python str() renders a float
with at least one fraction digit, so a whole number (e = 0) is rendered
with a trailing ".0". -/
def send_control_output (m : Int) (e : Nat) : String :=
  String.mk (if e = 0 then encodeCore (m * 10) 1 else encodeCore m e)

/-- Value of a little-endian digit list. -/
def revDigitsVal : List Nat → Nat
  | [] => 0
  | d :: ds => d + 10 * revDigitsVal ds

theorem natToRevDigitsAux_val (fuel : Nat) :
    ∀ n, n ≤ fuel → revDigitsVal (natToRevDigitsAux fuel n) = n := by
  induction fuel with
  | zero =>
    intro n hn
    have h0 : n = 0 := Nat.le_zero.mp hn
    subst h0
    rfl
  | succ fuel ih =>
    intro n hn
    by_cases h0 : n = 0
    · subst h0
      simp [natToRevDigitsAux, revDigitsVal]
    · have hlt : n / 10 ≤ fuel := by
        have hdiv : n / 10 < n := Nat.div_lt_self (Nat.pos_of_ne_zero h0) (by norm_num)
        omega
      simp only [natToRevDigitsAux, h0, if_false, revDigitsVal, ih _ hlt]
      omega

theorem revDigitsVal_natToRevDigits (n : Nat) :
    revDigitsVal (natToRevDigits n) = n :=
  natToRevDigitsAux_val n n le_rfl

theorem natToRevDigitsAux_lt (fuel : Nat) :
    ∀ n d, d ∈ natToRevDigitsAux fuel n → d < 10 := by
  induction fuel with
  | zero =>
    intro n d hd
    simp [natToRevDigitsAux] at hd
  | succ fuel ih =>
    intro n d hd
    by_cases h0 : n = 0
    · subst h0
      simp [natToRevDigitsAux] at hd
    · simp only [natToRevDigitsAux, h0, if_false, List.mem_cons] at hd
      rcases hd with h | h
      · subst h
        omega
      · exact ih _ _ h

theorem foldl_digits_acc (l : List Nat) :
    ∀ acc : Nat, l.foldl (fun a d => 10 * a + d) acc =
      acc * 10 ^ l.length + l.foldl (fun a d => 10 * a + d) 0 := by
  induction l with
  | nil => intro acc; simp
  | cons d l ih =>
    intro acc
    simp only [List.foldl_cons, List.length_cons]
    rw [ih (10 * acc + d), ih (10 * 0 + d)]
    ring

theorem digitsToNat_append (a b : List Nat) :
    digitsToNat (a ++ b) = digitsToNat a * 10 ^ b.length + digitsToNat b := by
  unfold digitsToNat
  rw [List.foldl_append, foldl_digits_acc b]

theorem digitsToNat_replicate_zero (k : Nat) :
    digitsToNat (List.replicate k 0) = 0 := by
  induction k with
  | zero => rfl
  | succ k ih => simpa [digitsToNat, List.replicate_succ] using ih

theorem revDigitsVal_eq_foldr (l : List Nat) :
    revDigitsVal l = l.foldr (fun d a => 10 * a + d) 0 := by
  induction l with
  | nil => rfl
  | cons d l ih =>
    simp only [revDigitsVal, List.foldr_cons, ih]
    omega

theorem digitsToNat_natDigitsBE (n : Nat) : digitsToNat (natDigitsBE n) = n := by
  unfold digitsToNat natDigitsBE
  rw [List.foldl_reverse, ← revDigitsVal_eq_foldr, revDigitsVal_natToRevDigits]

theorem takeWhile_all {α : Type} {p : α → Bool} {l : List α}
    (h : ∀ c ∈ l, p c = true) : l.takeWhile p = l := by
  induction l with
  | nil => rfl
  | cons a l ih =>
    simp only [List.takeWhile_cons, h a (List.mem_cons_self a l), if_true]
    rw [ih fun c hc => h c (List.mem_cons_of_mem a hc)]

theorem dropWhile_all {α : Type} {p : α → Bool} {l : List α}
    (h : ∀ c ∈ l, p c = true) : l.dropWhile p = [] := by
  induction l with
  | nil => rfl
  | cons a l ih =>
    simp only [List.dropWhile_cons, h a (List.mem_cons_self a l), if_true]
    exact ih fun c hc => h c (List.mem_cons_of_mem a hc)

theorem dropWhile_none {α : Type} {p : α → Bool} {l : List α}
    (h : ∀ c ∈ l, p c = false) : l.dropWhile p = l := by
  cases l with
  | nil => rfl
  | cons a l =>
    simp only [List.dropWhile_cons, h a (List.mem_cons_self a l)]
    simp

theorem takeWhile_append_stop {α : Type} {p : α → Bool} {l r : List α} {x : α}
    (hl : ∀ c ∈ l, p c = true) (hx : p x = false) :
    (l ++ x :: r).takeWhile p = l := by
  induction l with
  | nil => simp [List.takeWhile_cons, hx]
  | cons a l ih =>
    simp only [List.cons_append, List.takeWhile_cons,
      hl a (List.mem_cons_self a l), if_true]
    rw [ih fun c hc => hl c (List.mem_cons_of_mem a hc)]

theorem dropWhile_append_stop {α : Type} {p : α → Bool} {l r : List α} {x : α}
    (hl : ∀ c ∈ l, p c = true) (hx : p x = false) :
    (l ++ x :: r).dropWhile p = x :: r := by
  induction l with
  | nil => simp [List.dropWhile_cons, hx]
  | cons a l ih =>
    simp only [List.cons_append, List.dropWhile_cons,
      hl a (List.mem_cons_self a l), if_true]
    exact ih fun c hc => hl c (List.mem_cons_of_mem a hc)

theorem stripList_id {l : List Char} (h : ∀ c ∈ l, isPySpace c = false) :
    stripList l = l := by
  unfold stripList
  rw [dropWhile_none h,
    dropWhile_none fun c hc => h c (List.mem_reverse.mp hc),
    List.reverse_reverse]

/-- Facts about decimal digit characters, checked by evaluation. -/
theorem digit_char_facts : ∀ d < 10,
    isPySpace (toDigitChar d) = false ∧
    Char.isDigit (toDigitChar d) = true ∧
    toDigitChar d ≠ '-' ∧
    toDigitChar d ≠ '+' ∧
    toDigitChar d ≠ '.' ∧
    digitVal (toDigitChar d) = d := by decide

theorem map_digitVal_toDigitChar (l : List Nat) (h : ∀ d ∈ l, d < 10) :
    (l.map toDigitChar).map digitVal = l := by
  induction l with
  | nil => rfl
  | cons d l ih =>
    have hd : digitVal (toDigitChar d) = d :=
      (digit_char_facts d (h d (List.mem_cons_self d l))).2.2.2.2.2
    simp only [List.map_cons, hd]
    rw [ih fun c hc => h c (List.mem_cons_of_mem d hc)]

theorem charsVal_map_toDigitChar (l : List Nat) (h : ∀ d ∈ l, d < 10) :
    charsVal (l.map toDigitChar) = digitsToNat l := by
  unfold charsVal
  rw [map_digitVal_toDigitChar l h]

theorem padDigits_lt (e n : Nat) :
    ∀ d ∈ padDigits e (natDigitsBE n), d < 10 := by
  intro d hd
  unfold padDigits at hd
  rcases List.mem_append.mp hd with h | h
  · have := List.eq_of_mem_replicate h
    omega
  · exact natToRevDigitsAux_lt n n d (List.mem_reverse.mp h)

theorem parseSigned_cons_digit (c : Char) (cs : List Char)
    (h1 : c ≠ '-') (h2 : c ≠ '+') :
    parseSigned (c :: cs) = parseUnsigned (c :: cs) := by
  simp only [parseSigned]
  rw [if_neg h1, if_neg h2]

theorem parseSigned_neg (cs : List Char) :
    parseSigned ('-' :: cs) = (parseUnsigned cs).map (fun q => -q) := by
  simp [parseSigned]

theorem parseUnsigned_digits (ipd fpd : List Nat) (hip : ∀ d ∈ ipd, d < 10)
    (hfp : ∀ d ∈ fpd, d < 10) (hne : fpd ≠ []) :
    parseUnsigned (ipd.map toDigitChar ++ '.' :: fpd.map toDigitChar) =
      some ((digitsToNat ipd : ℚ) + (digitsToNat fpd : ℚ) / 10 ^ fpd.length) := by
  have hdig1 : ∀ c ∈ ipd.map toDigitChar, Char.isDigit c = true := by
    intro c hc
    rcases List.mem_map.mp hc with ⟨d, hd, rfl⟩
    exact (digit_char_facts d (hip d hd)).2.1
  have hdig2 : ∀ c ∈ fpd.map toDigitChar, Char.isDigit c = true := by
    intro c hc
    rcases List.mem_map.mp hc with ⟨d, hd, rfl⟩
    exact (digit_char_facts d (hfp d hd)).2.1
  have hdot : Char.isDigit '.' = false := by decide
  obtain ⟨f0, ftl, rfl⟩ : ∃ f0 ftl, fpd = f0 :: ftl := by
    cases fpd with
    | nil => exact absurd rfl hne
    | cons f0 ftl => exact ⟨f0, ftl, rfl⟩
  simp only [parseUnsigned, takeWhile_append_stop hdig1 hdot,
    dropWhile_append_stop hdig1 hdot]
  rw [takeWhile_all hdig2, dropWhile_all hdig2,
    charsVal_map_toDigitChar ipd hip, charsVal_map_toDigitChar (f0 :: ftl) hfp]
  simp only [if_true, List.isEmpty_nil, List.map_cons, List.isEmpty_cons,
    Bool.and_false, Bool.not_false, Bool.true_and, List.length_map,
    List.length_cons]

theorem encodeCore_eq (m : Int) (e : Nat) :
    encodeCore m e =
      (if m < 0 then ['-'] else []) ++
        ((padDigits e (natDigitsBE m.natAbs)).take
          ((padDigits e (natDigitsBE m.natAbs)).length - e)).map toDigitChar ++
        '.' :: ((padDigits e (natDigitsBE m.natAbs)).drop
          ((padDigits e (natDigitsBE m.natAbs)).length - e)).map toDigitChar := rfl

theorem encode_no_space (m : Int) (e : Nat) :
    ∀ c ∈ encodeCore m e, isPySpace c = false := by
  intro c hc
  have hds := padDigits_lt e m.natAbs
  rw [encodeCore_eq] at hc
  simp only [List.mem_append, List.mem_cons, List.mem_map] at hc
  rcases hc with (hc | ⟨d, hd, rfl⟩) | rfl | ⟨d, hd, rfl⟩
  · by_cases hm : m < 0
    · rw [if_pos hm] at hc
      simp only [List.mem_singleton] at hc
      subst hc
      decide
    · rw [if_neg hm] at hc
      simp at hc
  · exact (digit_char_facts d (hds d (List.take_subset _ _ hd))).1
  · decide
  · exact (digit_char_facts d (hds d (List.drop_subset _ _ hd))).1

theorem parse_encodeCore (m : Int) (e : Nat) (he : 1 ≤ e) :
    parseSigned (stripList (encodeCore m e)) = some ((m : ℚ) / 10 ^ e) := by
  rw [stripList_id (encode_no_space m e), encodeCore_eq]
  set ds := padDigits e (natDigitsBE m.natAbs) with hds_def
  set ip := ds.take (ds.length - e) with hip_def
  set fp := ds.drop (ds.length - e) with hfp_def
  have hdsmem : ∀ d ∈ ds, d < 10 := padDigits_lt e m.natAbs
  have hlen : e + 1 ≤ ds.length := by
    rw [hds_def]
    unfold padDigits
    rw [List.length_append, List.length_replicate]
    omega
  have hipmem : ∀ d ∈ ip, d < 10 := fun d hd => hdsmem d (List.take_subset _ _ hd)
  have hfpmem : ∀ d ∈ fp, d < 10 := fun d hd => hdsmem d (List.drop_subset _ _ hd)
  have hfplen : fp.length = e := by
    rw [hfp_def, List.length_drop]
    omega
  have hiplen : 1 ≤ ip.length := by
    rw [hip_def, List.length_take]
    omega
  have hfpne : fp ≠ [] := by
    intro h
    rw [h] at hfplen
    simp at hfplen
    omega
  have h1 : digitsToNat ds = m.natAbs := by
    rw [hds_def]
    unfold padDigits
    rw [digitsToNat_append, digitsToNat_replicate_zero, digitsToNat_natDigitsBE]
    simp
  have hn : digitsToNat ip * 10 ^ e + digitsToNat fp = m.natAbs := by
    rw [← List.take_append_drop (ds.length - e) ds] at h1
    rw [← hip_def, ← hfp_def, digitsToNat_append, hfplen] at h1
    exact h1
  have h10 : (10 : ℚ) ^ e ≠ 0 := by positivity
  have hz : ((digitsToNat ip : ℤ)) * 10 ^ e + (digitsToNat fp : ℤ) =
      (m.natAbs : ℤ) := by
    exact_mod_cast hn
  by_cases hm : m < 0
  · rw [if_pos hm, List.append_assoc, List.singleton_append, parseSigned_neg,
      parseUnsigned_digits ip fp hipmem hfpmem hfpne, hfplen]
    rw [Int.ofNat_natAbs_of_nonpos (le_of_lt hm)] at hz
    have hz2 : m = -((digitsToNat ip : ℤ) * 10 ^ e + (digitsToNat fp : ℤ)) := by
      linarith
    have hq : (m : ℚ) =
        -((digitsToNat ip : ℚ) * 10 ^ e + (digitsToNat fp : ℚ)) := by
      exact_mod_cast hz2
    rw [Option.map_some']
    congr 1
    rw [hq]
    field_simp
  · rw [if_neg hm, List.nil_append]
    obtain ⟨d0, itl, hipe⟩ : ∃ d0 itl, ip = d0 :: itl := by
      cases h : ip with
      | nil =>
        rw [h] at hiplen
        simp at hiplen
      | cons a l => exact ⟨a, l, rfl⟩
    have hd0 : d0 < 10 := hipmem d0 (by rw [hipe]; exact List.mem_cons_self d0 itl)
    rw [hipe, List.map_cons, List.cons_append,
      parseSigned_cons_digit _ _ (digit_char_facts d0 hd0).2.2.1
        (digit_char_facts d0 hd0).2.2.2.1,
      ← List.cons_append, ← List.map_cons, ← hipe,
      parseUnsigned_digits ip fp hipmem hfpmem hfpne, hfplen]
    rw [Int.natAbs_of_nonneg (not_lt.mp hm)] at hz
    have hq : (m : ℚ) =
        (digitsToNat ip : ℚ) * 10 ^ e + (digitsToNat fp : ℚ) := by
      exact_mod_cast hz.symm
    congr 1
    rw [hq]
    field_simp

/-- C9: the float-as-text codec round-trips.  `str(value)` followed by
`float(text.strip())` recovers every finite decimal m·10^(-e) exactly, in
particular the representative values 0.0, -1.0, 12.45 and 1000.0 (the
wire format and its precision modelled as exact finite decimals). -/
theorem C9_roundtrip :
    (∀ (m : Int) (e : Nat),
      read_measurement (send_control_output m e) = some ((m : ℚ) / 10 ^ e)) ∧
    read_measurement (send_control_output 0 1) = some 0 ∧
    read_measurement (send_control_output (-10) 1) = some (-1) ∧
    read_measurement (send_control_output 1245 2) = some (1245 / 100) ∧
    read_measurement (send_control_output 10000 1) = some 1000 := by
  have hmain : ∀ (m : Int) (e : Nat),
      read_measurement (send_control_output m e) = some ((m : ℚ) / 10 ^ e) := by
    intro m e
    by_cases h0 : e = 0
    · subst h0
      show parseSigned (stripList (encodeCore (m * 10) 1)) = some ((m : ℚ) / 10 ^ 0)
      rw [parse_encodeCore (m * 10) 1 le_rfl]
      congr 1
      push_cast
      field_simp
    · show parseSigned (stripList (if e = 0 then encodeCore (m * 10) 1
        else encodeCore m e)) = some ((m : ℚ) / 10 ^ e)
      rw [if_neg h0]
      exact parse_encodeCore m e (Nat.one_le_iff_ne_zero.mpr h0)
  refine ⟨hmain, ?_, ?_, ?_, ?_⟩
  · rw [hmain 0 1]
    norm_num
  · rw [hmain (-10) 1]
    norm_num
  · rw [hmain 1245 2]
    norm_num
  · rw [hmain 10000 1]
    norm_num

end PFAir
